import Mathlib

/-!
Shallow embedding of `core/forkchoice.go` from the go-quai repository.

The embedding models the two operations of the `ForkChoice` component,
`ReorgNeeded` and `UntwistAndTrim`, over an abstract `ChainReader`
collaborator. Go conventions are translated as follows:

* a `*types.Header` argument that may be nil becomes `Option Header`;
* a `[]*big.Int` difficulty tuple (three components accessed at indices
  0, 1, 2) becomes the structure `Td` with integer fields `d0 d1 d2`;
  a possibly-nil slice becomes `Option Td`;
* a Go `error` value becomes `Option String` (`none` = nil error) and a
  `(T, error)` pair where exactly one side is meaningful becomes
  `Except String T`;
* `f.rand.Float64()` draws are modelled by an explicit stream
  `rand : Nat -> Rat` of values in `[0, 1)`; the result of `ReorgNeeded`
  carries, as a third component, the number of draws consumed, so that
  the short-circuit evaluation of `!currentPreserve &&
  (externPreserve || f.rand.Float64() < 0.5)` is captured exactly;
* `header.Number[types.QuaiNetworkContext].Uint64()` — the positional
  number of a header in its native context — is the field
  `Header.number`; `header.Hash()` is the field `Header.hash`.
-/

/-- The three-component difficulty tuple (`[]*big.Int` with entries at
indices 0, 1 and 2, compared via `Cmp`). -/
structure Td where
  d0 : Int
  d1 : Int
  d2 : Int
deriving DecidableEq, Repr

/-- A block header, reduced to the attributes this core reads: its
content hash and its number at the native Quai network context. -/
structure Header where
  hash : Nat
  number : Nat
deriving DecidableEq, Repr

/-- The `ChainReader` collaborator interface, restricted to the methods
the two operations under study actually call. -/
structure ChainReader where
  /-- `GetTd(hash, number)`: stored total difficulty of a local block;
  the returned slice may be nil. -/
  GetTd : Nat → Nat → Option Td
  /-- `CalcTd(header)`: computes the TD of the given header; may fail,
  and even on success the returned slice may be nil. -/
  CalcTd : Header → Except String (Option Td)
  /-- `HLCR(local, extern)`: hierarchical comparison, true if the second
  tuple is greater than the first. -/
  HLCR : Td → Td → Bool
  /-- `GetDifficultyOrder(header)`: the difficulty order of a header. -/
  GetDifficultyOrder : Header → Except String Nat
  /-- `PCCRC(header, headerOrder)`: the previous coincident reference
  check; only its error component is inspected by this core, so the
  `types.PCRCTermini` success value is modelled as `Unit`. -/
  PCCRC : Header → Nat → Except String Unit

/-- The `ForkChoice` component: the injected chain reader and the
optional local-preference predicate `preserve` (nil for light clients).
The random generator is passed explicitly to `ReorgNeeded`. -/
structure ForkChoice where
  chain : ChainReader
  preserve : Option (Header → Bool)

/-- The value `f.preserve(h)` with a nil predicate treated as not
preferring any header, exactly as in the source where
`currentPreserve, externPreserve` stay false when `f.preserve == nil`. -/
def ForkChoice.preserveVal (f : ForkChoice) (h : Header) : Bool :=
  match f.preserve with
  | some p => p h
  | none => false

/-- `ReorgNeeded(current, header)` from `core/forkchoice.go`, lines
96–142. Returns the Go pair `(bool, error)` extended with the number of
random draws consumed (0 or 1). `rand` supplies the values of successive
`f.rand.Float64()` calls. -/
def ForkChoice.ReorgNeeded (f : ForkChoice) (current header : Option Header)
    (rand : Nat → ℚ) : Bool × Option String × Nat :=
  match current, header with
  | none, _ => (false, some "reorg beeing calculated on nil header", 0)
  | some _, none => (false, some "reorg beeing calculated on nil header", 0)
  | some current, some header =>
    let localTd := f.chain.GetTd current.hash current.number
    match f.chain.CalcTd header with
    | Except.error e => (false, some e, 0)
    | Except.ok externTdOpt =>
      match localTd, externTdOpt with
      | some localTd, some externTd =>
        let reorg := f.chain.HLCR localTd externTd
        let equalTd := externTd.d0 == localTd.d0 && externTd.d1 == localTd.d1
          && externTd.d2 == localTd.d2
        if !reorg && equalTd then
          if header.number < current.number then
            (true, none, 0)
          else if header.number == current.number then
            if f.preserveVal current then
              -- `!currentPreserve && _` short-circuits: no draw consumed
              (false, none, 0)
            else if f.preserveVal header then
              -- `externPreserve || _` short-circuits: no draw consumed
              (true, none, 0)
            else
              (decide (rand 0 < 1/2), none, 1)
          else
            (reorg, none, 0)
        else
          (reorg, none, 0)
      | _, _ => (false, some "missing td", 0)

/-- `UntwistAndTrim(header)` from `core/forkchoice.go`, lines 144–166.
Returns the Go `error` result (`none` = nil). -/
def ForkChoice.UntwistAndTrim (f : ForkChoice) (header : Header) : Option String :=
  match f.chain.GetDifficultyOrder header with
  | Except.error e => some e
  | Except.ok headerOrder =>
    match f.chain.PCCRC header headerOrder with
    | Except.error e =>
      if e == "slice is not synced" then
        none
      else if e == "PCCOP has found chain is not being built on canonical dom" then
        none
      else
        some e
    | Except.ok _ => none

/-!
Concrete fixtures used by the witness theorems. `chainWith b` is a chain
reader whose stored and computed difficulty tuples coincide and whose
hierarchical compare constantly answers `b`.
-/

def tdA : Td := ⟨3, 4, 5⟩

def tdB : Td := ⟨3, 4, 6⟩

def hdrA : Header := ⟨1, 7⟩

def hdrB : Header := ⟨2, 7⟩

def hdrLow : Header := ⟨3, 6⟩

def hdrHigh : Header := ⟨4, 9⟩

def chainWith (b : Bool) : ChainReader where
  GetTd := fun _ _ => some tdA
  CalcTd := fun _ => Except.ok (some tdA)
  HLCR := fun _ _ => b
  GetDifficultyOrder := fun _ => Except.ok 0
  PCCRC := fun _ _ => Except.ok ()

def randZero : Nat → ℚ := fun _ => 0

/-- C1: for non-null `current` and `header` whose difficulty tuples are
both present, if the hierarchical compare `HLCR(localTd, externTd)`
answers true then `ReorgNeeded` returns `(true, nil)` (consuming no
random draw). -/
theorem ForkChoice.reorgNeeded_of_hlcr_true (f : ForkChoice)
    (current header : Header) (localTd externTd : Td) (rand : Nat → ℚ)
    (hloc : f.chain.GetTd current.hash current.number = some localTd)
    (hext : f.chain.CalcTd header = Except.ok (some externTd))
    (hcmp : f.chain.HLCR localTd externTd = true) :
    f.ReorgNeeded (some current) (some header) rand = (true, none, 0) := by
  simp [ForkChoice.ReorgNeeded, hloc, hext, hcmp]

/-- Witness for C1 at a concrete chain where both tuples are `tdA` and
the hierarchical compare answers true. -/
theorem ForkChoice.reorgNeeded_of_hlcr_true_witness :
    ForkChoice.ReorgNeeded ⟨chainWith true, none⟩ (some hdrA) (some hdrB) randZero
      = (true, none, 0) :=
  ForkChoice.reorgNeeded_of_hlcr_true ⟨chainWith true, none⟩ hdrA hdrB tdA tdA
    randZero rfl rfl rfl

/-- C2: with both tuples present, hierarchical compare false, all three
components pairwise equal, and the candidate number strictly below the
current head number, `ReorgNeeded` returns `(true, nil)` for every
preference predicate, consuming no random draw. -/
theorem ForkChoice.reorgNeeded_tied_lower_number (f : ForkChoice)
    (current header : Header) (localTd externTd : Td) (rand : Nat → ℚ)
    (hloc : f.chain.GetTd current.hash current.number = some localTd)
    (hext : f.chain.CalcTd header = Except.ok (some externTd))
    (hcmp : f.chain.HLCR localTd externTd = false)
    (heq0 : externTd.d0 = localTd.d0) (heq1 : externTd.d1 = localTd.d1)
    (heq2 : externTd.d2 = localTd.d2)
    (hlt : header.number < current.number) :
    f.ReorgNeeded (some current) (some header) rand = (true, none, 0) := by
  simp [ForkChoice.ReorgNeeded, hloc, hext, hcmp, heq0, heq1, heq2, hlt]

/-- Witness for C2: candidate `hdrLow` (number 6) against head `hdrA`
(number 7) at tied difficulty, with a preference predicate present. -/
theorem ForkChoice.reorgNeeded_tied_lower_number_witness :
    ForkChoice.ReorgNeeded ⟨chainWith false, some (fun h => h.hash == 1)⟩
      (some hdrA) (some hdrLow) randZero = (true, none, 0) :=
  ForkChoice.reorgNeeded_tied_lower_number
    ⟨chainWith false, some (fun h => h.hash == 1)⟩ hdrA hdrLow tdA tdA
    randZero rfl rfl rfl rfl rfl rfl (by decide)

/-- C3: with both tuples present, hierarchical compare false, all three
components pairwise equal, equal numbers, and a supplied preference
predicate answering true on `current` and false on `header`,
`ReorgNeeded` returns `(false, nil)` for every random stream, consuming
no draw (the conjunction short-circuits on `!currentPreserve`). -/
theorem ForkChoice.reorgNeeded_tied_preserve_current (f : ForkChoice)
    (current header : Header) (localTd externTd : Td) (p : Header → Bool)
    (hpres : f.preserve = some p)
    (hloc : f.chain.GetTd current.hash current.number = some localTd)
    (hext : f.chain.CalcTd header = Except.ok (some externTd))
    (hcmp : f.chain.HLCR localTd externTd = false)
    (heq0 : externTd.d0 = localTd.d0) (heq1 : externTd.d1 = localTd.d1)
    (heq2 : externTd.d2 = localTd.d2)
    (hnum : header.number = current.number)
    (hcur : p current = true) (_hhdr : p header = false) :
    ∀ rand : Nat → ℚ,
      f.ReorgNeeded (some current) (some header) rand = (false, none, 0) := by
  intro rand
  simp [ForkChoice.ReorgNeeded, ForkChoice.preserveVal, hpres, hloc, hext, hcmp,
    heq0, heq1, heq2, hnum, hcur]

/-- Witness for C3: `hdrA` (hash 1) is preferred by the predicate,
`hdrB` (hash 2, same number) is not; tied difficulty. -/
theorem ForkChoice.reorgNeeded_tied_preserve_current_witness :
    ForkChoice.ReorgNeeded ⟨chainWith false, some (fun h => h.hash == 1)⟩
      (some hdrA) (some hdrB) randZero = (false, none, 0) :=
  ForkChoice.reorgNeeded_tied_preserve_current
    ⟨chainWith false, some (fun h => h.hash == 1)⟩ hdrA hdrB tdA tdA
    (fun h => h.hash == 1) rfl rfl rfl rfl rfl rfl rfl rfl (by decide) (by decide)
    randZero

/-- C4: with both tuples present, hierarchical compare false, all three
components pairwise equal, and the candidate number strictly above the
current head number, no tie-break branch applies and `ReorgNeeded`
returns `(false, nil)`, consuming no random draw. -/
theorem ForkChoice.reorgNeeded_tied_higher_number (f : ForkChoice)
    (current header : Header) (localTd externTd : Td) (rand : Nat → ℚ)
    (hloc : f.chain.GetTd current.hash current.number = some localTd)
    (hext : f.chain.CalcTd header = Except.ok (some externTd))
    (hcmp : f.chain.HLCR localTd externTd = false)
    (heq0 : externTd.d0 = localTd.d0) (heq1 : externTd.d1 = localTd.d1)
    (heq2 : externTd.d2 = localTd.d2)
    (hgt : current.number < header.number) :
    f.ReorgNeeded (some current) (some header) rand = (false, none, 0) := by
  have hnlt : ¬ header.number < current.number := Nat.not_lt_of_gt hgt
  have hne : header.number ≠ current.number := Nat.ne_of_gt hgt
  simp [ForkChoice.ReorgNeeded, hloc, hext, hcmp, heq0, heq1, heq2, hnlt, hne]

/-- Witness for C4: candidate `hdrHigh` (number 9) against head `hdrA`
(number 7) at tied difficulty. -/
theorem ForkChoice.reorgNeeded_tied_higher_number_witness :
    ForkChoice.ReorgNeeded ⟨chainWith false, none⟩ (some hdrA) (some hdrHigh)
      randZero = (false, none, 0) :=
  ForkChoice.reorgNeeded_tied_higher_number ⟨chainWith false, none⟩ hdrA hdrHigh
    tdA tdA randZero rfl rfl rfl rfl rfl rfl (by decide)

/-- C5: for every header `h`, every fork choice instance and every
random stream, `ReorgNeeded(nil, h)` and `ReorgNeeded(h, nil)` both
return false together with the non-nil invalid-input error; the result
is the same for all chain readers (no collaborator call is made). -/
theorem ForkChoice.reorgNeeded_nil_header (f : ForkChoice) (h : Header)
    (rand : Nat → ℚ) :
    f.ReorgNeeded none (some h) rand
        = (false, some "reorg beeing calculated on nil header", 0)
      ∧ f.ReorgNeeded (some h) none rand
        = (false, some "reorg beeing calculated on nil header", 0)
      ∧ f.ReorgNeeded none none rand
        = (false, some "reorg beeing calculated on nil header", 0) :=
  ⟨rfl, rfl, rfl⟩

/-- C6: for non-null headers, a failing `CalcTd` propagates its error
unchanged with result false; and with `CalcTd` succeeding, an absent
stored tuple or an absent computed tuple yields the missing-td error. -/
theorem ForkChoice.reorgNeeded_missing_td (f : ForkChoice)
    (current header : Header) (rand : Nat → ℚ) :
    (∀ e : String, f.chain.CalcTd header = Except.error e →
      f.ReorgNeeded (some current) (some header) rand = (false, some e, 0))
    ∧ (∀ externTdOpt : Option Td, f.chain.CalcTd header = Except.ok externTdOpt →
        (f.chain.GetTd current.hash current.number = none ∨ externTdOpt = none) →
        f.ReorgNeeded (some current) (some header) rand
          = (false, some "missing td", 0)) := by
  constructor
  · intro e he
    simp [ForkChoice.ReorgNeeded, he]
  · intro externTdOpt hok habs
    rcases habs with habs | habs
    · simp [ForkChoice.ReorgNeeded, hok, habs]
    · subst habs
      simp [ForkChoice.ReorgNeeded, hok]

def chainCalcFails : ChainReader where
  GetTd := fun _ _ => some tdA
  CalcTd := fun _ => Except.error "could not find the ancestor"
  HLCR := fun _ _ => false
  GetDifficultyOrder := fun _ => Except.ok 0
  PCCRC := fun _ _ => Except.ok ()

def chainNilLocalTd : ChainReader where
  GetTd := fun _ _ => none
  CalcTd := fun _ => Except.ok (some tdA)
  HLCR := fun _ _ => false
  GetDifficultyOrder := fun _ => Except.ok 0
  PCCRC := fun _ _ => Except.ok ()

/-- Witness for C6: a chain whose `CalcTd` fails propagates that error,
and a chain whose stored tuple is nil yields the missing-td error. -/
theorem ForkChoice.reorgNeeded_missing_td_witness :
    ForkChoice.ReorgNeeded ⟨chainCalcFails, none⟩ (some hdrA) (some hdrB) randZero
        = (false, some "could not find the ancestor", 0)
      ∧ ForkChoice.ReorgNeeded ⟨chainNilLocalTd, none⟩ (some hdrA) (some hdrB)
          randZero = (false, some "missing td", 0) :=
  ⟨(ForkChoice.reorgNeeded_missing_td ⟨chainCalcFails, none⟩ hdrA hdrB randZero).1
      "could not find the ancestor" rfl,
   (ForkChoice.reorgNeeded_missing_td ⟨chainNilLocalTd, none⟩ hdrA hdrB randZero).2
      (some tdA) rfl (Or.inl rfl)⟩

/-- C7: when the difficulty-order classification succeeds and the
coincidence check fails with either benign condition (slice not synced,
or not being built on the canonical dom), `UntwistAndTrim` returns nil. -/
theorem ForkChoice.untwistAndTrim_benign (f : ForkChoice) (header : Header)
    (headerOrder : Nat) (e : String)
    (hord : f.chain.GetDifficultyOrder header = Except.ok headerOrder)
    (hpc : f.chain.PCCRC header headerOrder = Except.error e)
    (hbenign : e = "slice is not synced"
      ∨ e = "PCCOP has found chain is not being built on canonical dom") :
    f.UntwistAndTrim header = none := by
  rcases hbenign with hb | hb <;> subst hb <;>
    simp [ForkChoice.UntwistAndTrim, hord, hpc]

def chainNotSynced : ChainReader where
  GetTd := fun _ _ => some tdA
  CalcTd := fun _ => Except.ok (some tdA)
  HLCR := fun _ _ => false
  GetDifficultyOrder := fun _ => Except.ok 2
  PCCRC := fun _ _ => Except.error "slice is not synced"

/-- Witness for C7: a chain whose coincidence check answers the
not-synced condition leads to a nil result. -/
theorem ForkChoice.untwistAndTrim_benign_witness :
    ForkChoice.UntwistAndTrim ⟨chainNotSynced, none⟩ hdrA = none :=
  ForkChoice.untwistAndTrim_benign ⟨chainNotSynced, none⟩ hdrA 2
    "slice is not synced" rfl rfl (Or.inl rfl)

/-- C8: `UntwistAndTrim` propagates unchanged any difficulty-order
classification failure and any coincidence-check failure other than the
two benign conditions, and returns nil when the coincidence check
succeeds. -/
theorem ForkChoice.untwistAndTrim_propagates (f : ForkChoice) (header : Header) :
    (∀ e : String, f.chain.GetDifficultyOrder header = Except.error e →
      f.UntwistAndTrim header = some e)
    ∧ (∀ (headerOrder : Nat) (e : String),
        f.chain.GetDifficultyOrder header = Except.ok headerOrder →
        f.chain.PCCRC header headerOrder = Except.error e →
        e ≠ "slice is not synced" →
        e ≠ "PCCOP has found chain is not being built on canonical dom" →
        f.UntwistAndTrim header = some e)
    ∧ (∀ headerOrder : Nat,
        f.chain.GetDifficultyOrder header = Except.ok headerOrder →
        f.chain.PCCRC header headerOrder = Except.ok () →
        f.UntwistAndTrim header = none) := by
  refine ⟨?_, ?_, ?_⟩
  · intro e he
    simp [ForkChoice.UntwistAndTrim, he]
  · intro headerOrder e hord hpc h1 h2
    simp [ForkChoice.UntwistAndTrim, hord, hpc, h1, h2]
  · intro headerOrder hord hpc
    simp [ForkChoice.UntwistAndTrim, hord, hpc]

def chainBadOrder : ChainReader where
  GetTd := fun _ _ => some tdA
  CalcTd := fun _ => Except.ok (some tdA)
  HLCR := fun _ _ => false
  GetDifficultyOrder := fun _ => Except.error "block does not satisfy minimum difficulty"
  PCCRC := fun _ _ => Except.ok ()

def chainFatalPCCRC : ChainReader where
  GetTd := fun _ _ => some tdA
  CalcTd := fun _ => Except.ok (some tdA)
  HLCR := fun _ _ => false
  GetDifficultyOrder := fun _ => Except.ok 1
  PCCRC := fun _ _ => Except.error "subordinate terminus mismatch"

/-- Witness for C8: a classification failure and a fatal coincidence
failure each propagate verbatim, and a succeeding check yields nil. -/
theorem ForkChoice.untwistAndTrim_propagates_witness :
    ForkChoice.UntwistAndTrim ⟨chainBadOrder, none⟩ hdrA
        = some "block does not satisfy minimum difficulty"
      ∧ ForkChoice.UntwistAndTrim ⟨chainFatalPCCRC, none⟩ hdrA
        = some "subordinate terminus mismatch"
      ∧ ForkChoice.UntwistAndTrim ⟨chainWith false, none⟩ hdrA = none :=
  ⟨(ForkChoice.untwistAndTrim_propagates ⟨chainBadOrder, none⟩ hdrA).1
      "block does not satisfy minimum difficulty" rfl,
   (ForkChoice.untwistAndTrim_propagates ⟨chainFatalPCCRC, none⟩ hdrA).2.1
      1 "subordinate terminus mismatch" rfl rfl (by decide) (by decide),
   (ForkChoice.untwistAndTrim_propagates ⟨chainWith false, none⟩ hdrA).2.2
      0 rfl rfl⟩

/-- C9: whenever the coin-flip branch is not reached — the difficulty
tuples are not all-equal, or the native-context numbers differ, or the
tie is resolved by the preference predicate alone — the result of
`ReorgNeeded` is the same for every state of the random source. -/
theorem ForkChoice.reorgNeeded_deterministic_off_coinflip (f : ForkChoice)
    (current header : Header) (localTd externTd : Td)
    (hloc : f.chain.GetTd current.hash current.number = some localTd)
    (hext : f.chain.CalcTd header = Except.ok (some externTd))
    (hnoflip : ¬(externTd.d0 = localTd.d0 ∧ externTd.d1 = localTd.d1
        ∧ externTd.d2 = localTd.d2)
      ∨ header.number ≠ current.number
      ∨ f.preserveVal current = true
      ∨ f.preserveVal header = true) :
    ∀ rand1 rand2 : Nat → ℚ,
      f.ReorgNeeded (some current) (some header) rand1
        = f.ReorgNeeded (some current) (some header) rand2 := by
  intro rand1 rand2
  rcases hnoflip with hne | hne | hpr | hpr
  · have heq : (externTd.d0 == localTd.d0 && externTd.d1 == localTd.d1
        && externTd.d2 == localTd.d2) = false := by
      cases hb : externTd.d0 == localTd.d0 && externTd.d1 == localTd.d1
          && externTd.d2 == localTd.d2
      · rfl
      · exact absurd (by simpa [Bool.and_eq_true, beq_iff_eq, and_assoc] using hb) hne
    simp [ForkChoice.ReorgNeeded, hloc, hext, heq]
  · simp [ForkChoice.ReorgNeeded, hloc, hext, hne]
  · simp [ForkChoice.ReorgNeeded, hloc, hext, hpr]
  · simp [ForkChoice.ReorgNeeded, hloc, hext, hpr]

def randHigh : Nat → ℚ := fun _ => 9/10

/-- Witness for C9: a tied-difficulty candidate at a lower number gives
identical results for two different random streams. -/
theorem ForkChoice.reorgNeeded_deterministic_off_coinflip_witness :
    ForkChoice.ReorgNeeded ⟨chainWith false, none⟩ (some hdrA) (some hdrLow)
        randZero
      = ForkChoice.ReorgNeeded ⟨chainWith false, none⟩ (some hdrA) (some hdrLow)
        randHigh :=
  ForkChoice.reorgNeeded_deterministic_off_coinflip ⟨chainWith false, none⟩
    hdrA hdrLow tdA tdA rfl rfl (Or.inr (Or.inl (by decide))) randZero randHigh

/-- C10: when the preference predicate is absent and the tie branch with
equal difficulty tuples and equal numbers is reached, both headers count
as not preferred and the result is `(true, nil)` exactly when the single
consumed random draw is below one half, `(false, nil)` otherwise. -/
theorem ForkChoice.reorgNeeded_nil_preserve_coinflip (f : ForkChoice)
    (current header : Header) (localTd externTd : Td) (rand : Nat → ℚ)
    (hpres : f.preserve = none)
    (hloc : f.chain.GetTd current.hash current.number = some localTd)
    (hext : f.chain.CalcTd header = Except.ok (some externTd))
    (hcmp : f.chain.HLCR localTd externTd = false)
    (heq0 : externTd.d0 = localTd.d0) (heq1 : externTd.d1 = localTd.d1)
    (heq2 : externTd.d2 = localTd.d2)
    (hnum : header.number = current.number) :
    f.ReorgNeeded (some current) (some header) rand
      = (decide (rand 0 < 1/2), none, 1) := by
  simp [ForkChoice.ReorgNeeded, ForkChoice.preserveVal, hpres, hloc, hext, hcmp,
    heq0, heq1, heq2, hnum]

/-- Witness for C10: with no preference predicate, tied difficulty and
equal numbers, the stream drawing 0 gives a reorg and consumes one draw. -/
theorem ForkChoice.reorgNeeded_nil_preserve_coinflip_witness :
    ForkChoice.ReorgNeeded ⟨chainWith false, none⟩ (some hdrA) (some hdrB)
      randZero = (true, none, 1) := by
  have h := ForkChoice.reorgNeeded_nil_preserve_coinflip ⟨chainWith false, none⟩
    hdrA hdrB tdA tdA randZero rfl rfl rfl rfl rfl rfl rfl rfl
  simpa [randZero] using h
